import Mathlib

/-!
Verification of the garage-door controller (`src/main.rs`).

The development shallowly embeds the controller's pure decision logic and
its effectful straight-line sequences (startup, relay pulse, one iteration
of the reconciliation loop) as Lean functions.  Effectful collaborators
(GPIO pins, the MQTT client, the console) are modelled by explicit
outcome flags and by action traces: each embedded function returns the
ordered list of externally visible actions it performs, so ordering and
abort behaviour can be stated as theorems.
-/

/-- Door state enumeration (`enum Status`), serialized by strum to the
lowercase tokens `open` / `closed`. -/
inductive Status
  | Open
  | Closed
deriving DecidableEq, Repr

/-- Command enumeration (`enum Command`), serialized by strum to the
uppercase tokens `OPEN` / `CLOSE`. -/
inductive Command
  | Open
  | Close
deriving DecidableEq, Repr

/-- strum `Display` for `Status`: the serialize attribute strings. -/
def Status.to_string : Status → String
  | Status.Open => "open"
  | Status.Closed => "closed"

/-- strum `EnumString`/`FromStr` for `Status`: exact match on the
serialize attribute strings, any other input is an error (`none`). -/
def Status.from_str (s : String) : Option Status :=
  if s = "open" then some Status.Open
  else if s = "closed" then some Status.Closed
  else none

/-- strum `Display` for `Command`: the serialize attribute strings. -/
def Command.to_string : Command → String
  | Command.Open => "OPEN"
  | Command.Close => "CLOSE"

/-- strum `EnumString`/`FromStr` for `Command`: exact match on the
serialize attribute strings, any other input is an error (`none`). -/
def Command.from_str (s : String) : Option Command :=
  if s = "OPEN" then some Command.Open
  else if s = "CLOSE" then some Command.Close
  else none

/-- `fn parse_door_status(status: u8) -> Status`: `0` maps to `Open`,
any non-zero raw line value maps to `Closed`. -/
def parse_door_status (status : Nat) : Status :=
  match status with
  | 0 => Status.Open
  | _ => Status.Closed

/-- `let mqtt_path = "homeassistant/cover/garage"` in `main`. -/
def mqtt_path : String := "homeassistant/cover/garage"

/-- `format!("{}/config", mqtt_path)`. -/
def config_topic : String := mqtt_path ++ "/config"

/-- `format!("{}/command", mqtt_path)`. -/
def command_topic : String := mqtt_path ++ "/command"

/-- `format!("{}/state", mqtt_path)`. -/
def state_topic : String := mqtt_path ++ "/state"

/-- The discovery descriptor built by the `json!` block in `main`, as an
ordered key/value list (all values in the source object are JSON strings). -/
def device_config : List (String × String) :=
  [("name", "Garage"),
   ("unique_id", "garage_door"),
   ("command_topic", command_topic),
   ("payload_close", Command.to_string Command.Close),
   ("payload_open", Command.to_string Command.Open),
   ("state_topic", state_topic),
   ("state_open", Status.to_string Status.Open),
   ("state_closed", Status.to_string Status.Closed),
   ("device_class", "garage")]

/-- Continuation-byte test for UTF-8 decoding: `0x80 ≤ b ≤ 0xBF`. -/
def utf8_cont (b : Nat) : Bool := 0x80 ≤ b && b ≤ 0xBF

/-- The scalar value of a 2-byte UTF-8 sequence. -/
def utf8_val2 (b b1 : Nat) : Nat := (b - 0xC0) * 0x40 + (b1 - 0x80)

/-- The scalar value of a 3-byte UTF-8 sequence. -/
def utf8_val3 (b b1 b2 : Nat) : Nat :=
  (b - 0xE0) * 0x1000 + (b1 - 0x80) * 0x40 + (b2 - 0x80)

/-- The scalar value of a 4-byte UTF-8 sequence. -/
def utf8_val4 (b b1 b2 b3 : Nat) : Nat :=
  (b - 0xF0) * 0x40000 + (b1 - 0x80) * 0x1000 + (b2 - 0x80) * 0x40 + (b3 - 0x80)

/-- One step of the model of `std::str::from_utf8`: decode the unicode
scalar value whose encoding starts with lead byte `b`, the remaining bytes
being `rest`; return the scalar value and the bytes left over, or `none`
when the bytes are not valid UTF-8.  The branches follow the
row-per-lead-byte acceptance table that `from_utf8` implements (the
Unicode well-formed byte sequence table): overlong encodings, surrogates
and values above `0x10FFFF` are rejected by the restricted second-byte
ranges of the `0xE0`, `0xED`, `0xF0` and `0xF4` rows. -/
def utf8_decode1 (b : Nat) (rest : List Nat) : Option (Nat × List Nat) :=
  if b ≤ 0x7F then some (b, rest)
  else if 0xC2 ≤ b && b ≤ 0xDF then
    match rest with
    | b1 :: rest2 => if utf8_cont b1 then some (utf8_val2 b b1, rest2) else none
    | [] => none
  else if b = 0xE0 then
    match rest with
    | b1 :: b2 :: rest2 =>
      if (0xA0 ≤ b1 && b1 ≤ 0xBF) && utf8_cont b2 then some (utf8_val3 b b1 b2, rest2) else none
    | _ => none
  else if 0xE1 ≤ b && b ≤ 0xEC then
    match rest with
    | b1 :: b2 :: rest2 =>
      if utf8_cont b1 && utf8_cont b2 then some (utf8_val3 b b1 b2, rest2) else none
    | _ => none
  else if b = 0xED then
    match rest with
    | b1 :: b2 :: rest2 =>
      if (0x80 ≤ b1 && b1 ≤ 0x9F) && utf8_cont b2 then some (utf8_val3 b b1 b2, rest2) else none
    | _ => none
  else if 0xEE ≤ b && b ≤ 0xEF then
    match rest with
    | b1 :: b2 :: rest2 =>
      if utf8_cont b1 && utf8_cont b2 then some (utf8_val3 b b1 b2, rest2) else none
    | _ => none
  else if b = 0xF0 then
    match rest with
    | b1 :: b2 :: b3 :: rest2 =>
      if ((0x90 ≤ b1 && b1 ≤ 0xBF) && utf8_cont b2) && utf8_cont b3 then
        some (utf8_val4 b b1 b2 b3, rest2)
      else none
    | _ => none
  else if 0xF1 ≤ b && b ≤ 0xF3 then
    match rest with
    | b1 :: b2 :: b3 :: rest2 =>
      if (utf8_cont b1 && utf8_cont b2) && utf8_cont b3 then
        some (utf8_val4 b b1 b2 b3, rest2)
      else none
    | _ => none
  else if b = 0xF4 then
    match rest with
    | b1 :: b2 :: b3 :: rest2 =>
      if ((0x80 ≤ b1 && b1 ≤ 0x8F) && utf8_cont b2) && utf8_cont b3 then
        some (utf8_val4 b b1 b2 b3, rest2)
      else none
    | _ => none
  else none

/-- Fuelled decoding loop: each step consumes at least the lead byte, so
a fuel equal to the input length always suffices. -/
def utf8_decode_go : Nat → List Nat → Option (List Nat)
  | _, [] => some []
  | 0, _ :: _ => none
  | fuel + 1, b :: rest =>
    match utf8_decode1 b rest with
    | none => none
    | some (c, rest2) => Option.map (fun cps => c :: cps) (utf8_decode_go fuel rest2)

/-- Model of `std::str::from_utf8` on a byte list, returning the decoded
sequence of unicode scalar values, or `none` when the bytes are not valid
UTF-8. -/
def utf8_decode (l : List Nat) : Option (List Nat) := utf8_decode_go l.length l

/-- The unicode scalar values of a string, for comparing a decoded byte
sequence against a string literal (`String` equality is equality of the
underlying character sequences). -/
def str_codepoints (s : String) : List Nat := s.data.map Char.toNat

/-- The command parse performed on an inbound payload in `main`:
`from_utf8(packet.payload.as_ref()).and_then(|s| Command::from_str(s))`,
with the string comparison of `Command::from_str` represented on the
decoded scalar-value sequence. -/
def parse_command_payload (payload : List Nat) : Option Command :=
  match utf8_decode payload with
  | none => none
  | some cps =>
    if cps = str_codepoints "OPEN" then some Command.Open
    else if cps = str_codepoints "CLOSE" then some Command.Close
    else none

/-- Externally visible actions of `main`, in the order the code performs
them: hardware/stream/bus setup, MQTT publishes and subscribes (with
quality-of-service level `1` = at-least-once, `2` = exactly-once, and the
retain flag), relay pulses, and console log lines. -/
inductive Act
  | init_hardware
  | open_status_stream
  | open_input_stream
  | connect_bus
  | publish_config (cfg : List (String × String)) (qos : Nat) (retain : Bool)
  | subscribe (topic : String) (qos : Nat)
  | publish (topic : String) (qos : Nat) (retain : Bool) (payload : String)
  | pulse
  | log (msg : String)
deriving DecidableEq, Repr

/-- Outcomes of the fallible operations the startup sequence of `main`
performs (each `?` in the source), plus the raw status-line value the
initial `get_door_status` call reads. -/
structure StartupEnv where
  hw_ok : Bool
  status_stream_ok : Bool
  input_stream_ok : Bool
  publish_config_ok : Bool
  subscribe_ok : Bool
  line_read_ok : Bool
  line_value : Nat
  publish_state_ok : Bool
deriving DecidableEq, Repr

/-- The startup sequence of `main` (everything before the monitor loop),
returning the actions performed in order and whether startup completed;
each failing `?` aborts the remainder. -/
def startup (env : StartupEnv) : List Act × Bool :=
  if !env.hw_ok then ([], false)
  else
    let acts := [Act.init_hardware]
    if !env.status_stream_ok then (acts, false)
    else
      let acts := acts ++ [Act.open_status_stream]
      if !env.input_stream_ok then (acts, false)
      else
        let acts := acts ++ [Act.open_input_stream]
        let acts := acts ++ [Act.connect_bus]
        if !env.publish_config_ok then (acts, false)
        else
          let acts := acts ++ [Act.publish_config device_config 1 false]
          if !env.subscribe_ok then (acts, false)
          else
            let acts := acts ++ [Act.subscribe command_topic 2]
            if !env.line_read_ok then (acts, false)
            else
              let status := parse_door_status env.line_value
              if !env.publish_state_ok then (acts, false)
              else
                (acts ++ [Act.publish state_topic 1 true (Status.to_string status)], true)

/-- Recognizer for a publish on the state topic. -/
def is_state_publish (a : Act) : Bool :=
  match a with
  | Act.publish t _ _ _ => t = state_topic
  | _ => false

/-- One item delivered by a GPIO value-change stream:
`Some(Ok(v))`, `Some(Err(_))` or `None`. -/
inductive StreamItem
  | ok (v : Nat)
  | err
  | closed
deriving DecidableEq, Repr

/-- One result of `event_loop.poll()`: an incoming publish packet, any
other protocol event, or a connection error. -/
inductive MqttPoll
  | publishPacket (topic : String) (payload : List Nat)
  | otherEvent
  | pollError
deriving DecidableEq, Repr

/-- The event sources of the `tokio::select!` in the monitor loop. -/
inductive LoopEvent
  | timerTick
  | statusChange (i : StreamItem)
  | inputTrigger (i : StreamItem)
  | busEvent (m : MqttPoll)
  | ctrlC
deriving DecidableEq, Repr

/-- What one handled event does to the loop: continue looping, `break`
out of the loop, or `return Err(..)` out of `main`; each constructor
carries the actions performed while handling the event, in order
(`Act.pulse` records that `trigger_relay` was invoked; when the pulse
itself fails the step is `fatal` and the pulse action is still listed,
since the invocation happened before the error propagated). -/
inductive StepResult
  | cont (acts : List Act)
  | brk (acts : List Act)
  | fatal (acts : List Act)
deriving DecidableEq, Repr

/-- Outcomes of the fallible operations a loop iteration may perform:
the synchronous status-line read (`get_value`), the raw value it returns,
the state publish, and the relay pulse. -/
structure LoopEnv where
  line_value : Nat
  line_read_ok : Bool
  publish_ok : Bool
  pulse_ok : Bool
deriving DecidableEq, Repr

/-- `fn get_door_status(hw: &Hardware) -> Result<Status, Error>`:
read the status line synchronously and map the raw value through
`parse_door_status`; `none` models the `Err` case. -/
def get_door_status (env : LoopEnv) : Option Status :=
  if env.line_read_ok then some (parse_door_status env.line_value) else none

/-- The command handling of the bus arm of the loop after a successful
parse (`main`, the `match (command, current_status)` block): re-read the
door state synchronously, pulse the relay only for the two pairings
`(Open, Closed)` and `(Close, Open)`, log and ignore every other pairing.
A failed state read or a failed pulse is a propagated error. -/
def handle_command (env : LoopEnv) (command : Command) : StepResult :=
  match get_door_status env with
  | none => StepResult.fatal []
  | some current_status =>
    let lg := Act.log ("command = " ++ Command.to_string command ++ ", door status = "
      ++ Status.to_string current_status)
    match command, current_status with
    | Command.Open, Status.Closed | Command.Close, Status.Open =>
      if env.pulse_ok then StepResult.cont [lg, Act.pulse]
      else StepResult.fatal [lg, Act.pulse]
    | _, _ => StepResult.cont [lg, Act.log "invalid command, ignoring"]

/-- One iteration of the monitor loop of `main`: handle a single ready
event from one of the five `select!` arms. -/
def loopStep (env : LoopEnv) (ev : LoopEvent) : StepResult :=
  match ev with
  | LoopEvent.timerTick =>
    match get_door_status env with
    | none => StepResult.fatal []
    | some status =>
      if env.publish_ok then
        StepResult.cont [Act.publish state_topic 1 true (Status.to_string status)]
      else StepResult.fatal []
  | LoopEvent.statusChange (StreamItem.ok x) =>
    let status := parse_door_status x
    let lg := Act.log ("detected door status = " ++ Status.to_string status)
    if env.publish_ok then
      StepResult.cont [lg, Act.publish state_topic 1 true (Status.to_string status)]
    else StepResult.fatal [lg]
  | LoopEvent.statusChange StreamItem.err => StepResult.fatal []
  | LoopEvent.statusChange StreamItem.closed => StepResult.brk []
  | LoopEvent.inputTrigger (StreamItem.ok x) =>
    if x ≠ 0 then
      if env.pulse_ok then StepResult.cont [Act.log "detected input trigger", Act.pulse]
      else StepResult.fatal [Act.log "detected input trigger", Act.pulse]
    else StepResult.cont []
  | LoopEvent.inputTrigger StreamItem.err => StepResult.fatal []
  | LoopEvent.inputTrigger StreamItem.closed => StepResult.brk []
  | LoopEvent.busEvent (MqttPoll.publishPacket topic payload) =>
    if topic = command_topic then
      match parse_command_payload payload with
      | none => StepResult.cont [Act.log "invalid payload on command topic"]
      | some command => handle_command env command
    else StepResult.cont [Act.log ("unrecognized topic " ++ topic)]
  | LoopEvent.busEvent MqttPoll.otherEvent => StepResult.cont []
  | LoopEvent.busEvent MqttPoll.pollError => StepResult.cont [Act.log "mqtt error"]
  | LoopEvent.ctrlC => StepResult.brk [Act.log "shutdown signal received"]

/-- The actions a step performed, whatever the loop did afterwards. -/
def StepResult.acts : StepResult → List Act
  | StepResult.cont a => a
  | StepResult.brk a => a
  | StepResult.fatal a => a

/-- The relay pulse operation was invoked while handling the event. -/
def pulse_invoked (r : StepResult) : Prop := Act.pulse ∈ r.acts

/-- The step propagated an error out of the loop. -/
def StepResult.is_fatal : StepResult → Bool
  | StepResult.fatal _ => true
  | _ => false

/-- The process outcome: `main` returning `Ok(())` (exit success) or
`Err(..)` (exit failure with a printed diagnostic). -/
inductive ProcExit
  | success
  | failure
deriving DecidableEq, Repr

/-- How a step ends the process, if it does: `break` reaches the final
`Ok(())` of `main` (success), `return Err(..)` is a failure; a
continuing step does not end the process. -/
def step_exit : StepResult → Option ProcExit
  | StepResult.cont _ => none
  | StepResult.brk _ => some ProcExit.success
  | StepResult.fatal _ => some ProcExit.failure

/-- The events of one `trigger_relay` invocation visible outside the
function: mutex operations, pin writes that took effect, the timed hold,
and the log line. -/
inductive RelayEvent
  | lockAcquire
  | lockRelease
  | logTrigger
  | setLed (v : Nat)
  | setRelay (v : Nat)
  | sleepMs (ms : Nat)
deriving DecidableEq, Repr

/-- The two output pins `trigger_relay` writes. -/
structure PinState where
  led : Nat
  relay : Nat
deriving DecidableEq, Repr

/-- `led.set_value(v)` -/
def set_led_value (p : PinState) (v : Nat) : PinState := ⟨v, p.relay⟩

/-- `relay.set_value(v)` -/
def set_relay_value (p : PinState) (v : Nat) : PinState := ⟨p.led, v⟩

/-- Outcomes of the four potential pin writes of one `trigger_relay`
invocation, in source order: a `false` flag means that `set_value` call
returns `Err`, leaving the pin value unchanged. -/
structure PulseEnv where
  led_high_ok : Bool
  relay_high_ok : Bool
  relay_low_ok : Bool
  led_low_ok : Bool
deriving DecidableEq, Repr

/-- What one `trigger_relay` invocation did: its event trace in order,
the final pin values, and whether it returned `Ok(())`. -/
structure PulseOut where
  trace : List RelayEvent
  pins : PinState
  ok : Bool
deriving DecidableEq, Repr

/-- `async fn trigger_relay(hw: &Hardware) -> Result<(), Error>`.

The first statement is `let _ = hw.lock.lock().await;`.  The wildcard
pattern of a `let` does not bind the `MutexGuard`, so the guard is a
temporary that Rust drops at the end of that statement: the mutex is
acquired and immediately released, before the log line and before any
pin write (this is the behaviour of the code as written; see the
`lockAcquire`/`lockRelease` prefix of the trace).  Each failing
`set_value` (`?`) aborts the remaining steps, every pin keeping the
value it had at the point of failure.  `hasLed` is `hw.led.is_some()`. -/
def trigger_relay (hasLed : Bool) (env : PulseEnv) (p : PinState) : PulseOut :=
  let tr := [RelayEvent.lockAcquire, RelayEvent.lockRelease, RelayEvent.logTrigger]
  if hasLed && !env.led_high_ok then ⟨tr, p, false⟩
  else
    let tr := if hasLed then tr ++ [RelayEvent.setLed 1] else tr
    let p := if hasLed then set_led_value p 1 else p
    if !env.relay_high_ok then ⟨tr, p, false⟩
    else
      let tr := tr ++ [RelayEvent.setRelay 1]
      let p := set_relay_value p 1
      let tr := tr ++ [RelayEvent.sleepMs 200]
      if !env.relay_low_ok then ⟨tr, p, false⟩
      else
        let tr := tr ++ [RelayEvent.setRelay 0]
        let p := set_relay_value p 0
        if hasLed && !env.led_low_ok then ⟨tr, p, false⟩
        else
          let tr := if hasLed then tr ++ [RelayEvent.setLed 0] else tr
          let p := if hasLed then set_led_value p 0 else p
          ⟨tr, p, true⟩

/-- The complete event trace of a fully successful pulse, in source
order: lock acquire and immediate release, log line, optional indicator
high, relay high, 200 ms hold, relay low, optional indicator low. -/
def pulse_full_trace (hasLed : Bool) : List RelayEvent :=
  [RelayEvent.lockAcquire, RelayEvent.lockRelease, RelayEvent.logTrigger]
    ++ (if hasLed then [RelayEvent.setLed 1] else [])
    ++ [RelayEvent.setRelay 1, RelayEvent.sleepMs 200, RelayEvent.setRelay 0]
    ++ (if hasLed then [RelayEvent.setLed 0] else [])

/-- Replay the pin writes of a trace over a pin state. -/
def apply_relay_event (p : PinState) (e : RelayEvent) : PinState :=
  match e with
  | RelayEvent.setLed v => set_led_value p v
  | RelayEvent.setRelay v => set_relay_value p v
  | _ => p

set_option maxHeartbeats 1600000 in
set_option maxRecDepth 4096 in
/-- Inversion: a decoded scalar value below `0x80` can only come from the
single byte equal to it, every multi-byte row of the table producing a
scalar value of at least `0x80`. -/
theorem utf8_decode1_ascii {b : Nat} {rest : List Nat} {c : Nat} {rest2 : List Nat}
    (hc : c ≤ 0x7F) (h : utf8_decode1 b rest = some (c, rest2)) :
    b = c ∧ rest2 = rest := by
  unfold utf8_decode1 at h
  repeat' split at h
  all_goals
    first
    | exact Option.noConfusion h
    | (rw [Option.some.injEq, Prod.mk.injEq] at h
       first
       | exact ⟨h.1, h.2.symm⟩
       | (exfalso
          rcases h with ⟨hval, -⟩
          simp only [utf8_cont, utf8_val2, utf8_val3, utf8_val4, Bool.and_eq_true,
            decide_eq_true_eq] at *
          omega))

/-- Inversion: only the empty byte sequence decodes to the empty scalar
sequence. -/
theorem utf8_decode_eq_nil {l : List Nat} (h : utf8_decode l = some []) : l = [] := by
  cases l with
  | nil => rfl
  | cons b rest =>
    exfalso
    have h2 : utf8_decode_go (rest.length + 1) (b :: rest) = some [] := h
    simp only [utf8_decode_go] at h2
    split at h2
    · exact Option.noConfusion h2
    · rcases Option.map_eq_some'.mp h2 with ⟨a, ha, hba⟩
      exact List.noConfusion hba

/-- Inversion: an ASCII scalar value at the head of a decode result can
only come from the single byte equal to it, the remaining bytes decoding
to the remaining scalar values. -/
theorem utf8_decode_ascii_cons {l : List Nat} {c : Nat} {cps : List Nat}
    (hc : c ≤ 0x7F) (h : utf8_decode l = some (c :: cps)) :
    ∃ rest, l = c :: rest ∧ utf8_decode rest = some cps := by
  cases l with
  | nil => exact absurd (Option.some.inj h) (by simp)
  | cons b rest =>
    have h2 : utf8_decode_go (rest.length + 1) (b :: rest) = some (c :: cps) := h
    simp only [utf8_decode_go] at h2
    cases h1 : utf8_decode1 b rest with
    | none => rw [h1] at h2; exact Option.noConfusion h2
    | some v =>
      obtain ⟨c0, rest2⟩ := v
      rw [h1] at h2
      rcases Option.map_eq_some'.mp h2 with ⟨a, ha, hba⟩
      rw [List.cons.injEq] at hba
      obtain ⟨rfl, rfl⟩ := hba
      obtain ⟨rfl, hrest⟩ := utf8_decode1_ascii hc h1
      rw [hrest] at ha
      exact ⟨rest, rfl, ha⟩

/-- A byte sequence decoding to ASCII-only scalar values is that scalar
sequence itself. -/
theorem utf8_decode_ascii_list {cps : List Nat} (hall : ∀ c ∈ cps, c ≤ 0x7F) :
    ∀ {l : List Nat}, utf8_decode l = some cps → l = cps := by
  induction cps with
  | nil => exact fun h => utf8_decode_eq_nil h
  | cons c cps ih =>
    intro l h
    obtain ⟨rest, rfl, hrest⟩ := utf8_decode_ascii_cons (hall c (by simp)) h
    rw [ih (fun x hx => hall x (by simp [hx])) hrest]

/-- The only payload byte sequences the command parse accepts are the
UTF-8 encodings of the two serialized command tokens. -/
theorem parse_command_payload_some {payload : List Nat} {cmd : Command}
    (h : parse_command_payload payload = some cmd) :
    payload = str_codepoints (Command.to_string cmd) := by
  cases hdec : utf8_decode payload with
  | none =>
    exfalso
    have h2 : (none : Option Command) = some cmd := by
      rw [← h]; unfold parse_command_payload; rw [hdec]
    exact Option.noConfusion h2
  | some cps =>
    have h2 : (if cps = str_codepoints "OPEN" then some Command.Open
        else if cps = str_codepoints "CLOSE" then some Command.Close
        else none) = some cmd := by
      rw [← h]; unfold parse_command_payload; rw [hdec]
    by_cases hO : cps = str_codepoints "OPEN"
    · rw [if_pos hO] at h2
      obtain rfl : Command.Open = cmd := Option.some.inj h2
      rw [hO] at hdec
      exact utf8_decode_ascii_list (by decide) hdec
    · rw [if_neg hO] at h2
      by_cases hC : cps = str_codepoints "CLOSE"
      · rw [if_pos hC] at h2
        obtain rfl : Command.Close = cmd := Option.some.inj h2
        rw [hC] at hdec
        exact utf8_decode_ascii_list (by decide) hdec
      · rw [if_neg hC] at h2
        exact Option.noConfusion h2

/-- Claim C3: for every raw status-line value `v` (a `u8`), the
door-state reader returns `Closed` if and only if `v ≠ 0`, and returns
`Open` for `v = 0`; the mapping is total and a fixed decision table. -/
theorem c3_door_state_decision_table :
    ∀ v : Nat,
      (parse_door_status v = Status.Closed ↔ v ≠ 0) ∧ parse_door_status 0 = Status.Open := by
  intro v
  refine ⟨?_, rfl⟩
  cases v with
  | zero => simp [parse_door_status]
  | succ n => simp [parse_door_status]

/-- Claim C10: serialization and parsing round-trip for `Command` and
`Status`; the command parser accepts exactly the two serialized command
tokens; the `payload_open`/`payload_close` and `state_open`/`state_closed`
entries of the discovery descriptor are exactly the serialized tokens,
and the payload published to the state topic after a status edge is
exactly the serialized `Status` token. -/
theorem c10_serialization_roundtrip :
    (∀ c : Command, Command.from_str (Command.to_string c) = some c) ∧
    (∀ s : Status, Status.from_str (Status.to_string s) = some s) ∧
    (∀ str : String, Command.from_str str ≠ none ↔
      (str = Command.to_string Command.Open ∨ str = Command.to_string Command.Close)) ∧
    List.lookup "payload_open" device_config = some (Command.to_string Command.Open) ∧
    List.lookup "payload_close" device_config = some (Command.to_string Command.Close) ∧
    List.lookup "state_open" device_config = some (Status.to_string Status.Open) ∧
    List.lookup "state_closed" device_config = some (Status.to_string Status.Closed) ∧
    (∀ w x : Nat, loopStep ⟨w, true, true, true⟩ (LoopEvent.statusChange (StreamItem.ok x)) =
      StepResult.cont
        [Act.log ("detected door status = " ++ Status.to_string (parse_door_status x)),
         Act.publish state_topic 1 true (Status.to_string (parse_door_status x))]) := by
  refine ⟨?_, ?_, ?_, by decide, by decide, by decide, by decide, ?_⟩
  · intro c; cases c <;> decide
  · intro s; cases s <;> decide
  · intro str
    unfold Command.from_str
    by_cases h1 : str = "OPEN"
    · simp [h1, Command.to_string]
    · by_cases h2 : str = "CLOSE"
      · simp [h1, h2, Command.to_string]
      · simp [h1, h2, Command.to_string]
  · intro w x
    rfl

/-- Claim C1: for every parsed command and current door state read
synchronously at decision time, the relay pulse is invoked if and only
if `(Open, Closed)` or `(Close, Open)`; in the other pairings no pulse
occurs and the handling is a no-op apart from logging (the loop
continues). -/
theorem c1_command_validity (env : LoopEnv) (command : Command)
    (hread : env.line_read_ok = true) :
    (pulse_invoked (handle_command env command) ↔
      ((command = Command.Open ∧ parse_door_status env.line_value = Status.Closed) ∨
       (command = Command.Close ∧ parse_door_status env.line_value = Status.Open))) ∧
    (¬ ((command = Command.Open ∧ parse_door_status env.line_value = Status.Closed) ∨
        (command = Command.Close ∧ parse_door_status env.line_value = Status.Open)) →
      handle_command env command = StepResult.cont
        [Act.log ("command = " ++ Command.to_string command ++ ", door status = "
           ++ Status.to_string (parse_door_status env.line_value)),
         Act.log "invalid command, ignoring"]) := by
  cases command <;>
    cases hs : parse_door_status env.line_value <;>
      cases hp : env.pulse_ok <;>
        simp [handle_command, get_door_status, hread, hs, hp, pulse_invoked, StepResult.acts]

/-- Witness for C1 at a concrete input: line value `1` (door `Closed`),
command `OPEN` — the pulse is invoked. -/
theorem c1_command_validity_witness :
    (pulse_invoked (handle_command ⟨1, true, true, true⟩ Command.Open) ↔
      ((Command.Open = Command.Open ∧ parse_door_status 1 = Status.Closed) ∨
       (Command.Open = Command.Close ∧ parse_door_status 1 = Status.Open))) ∧
    (¬ ((Command.Open = Command.Open ∧ parse_door_status 1 = Status.Closed) ∨
        (Command.Open = Command.Close ∧ parse_door_status 1 = Status.Open)) →
      handle_command ⟨1, true, true, true⟩ Command.Open = StepResult.cont
        [Act.log ("command = " ++ Command.to_string Command.Open ++ ", door status = "
           ++ Status.to_string (parse_door_status 1)),
         Act.log "invalid command, ignoring"]) :=
  c1_command_validity ⟨1, true, true, true⟩ Command.Open rfl

/-- Claim C4: every command-topic payload whose bytes are not exactly the
UTF-8 encoding of `"OPEN"` or `"CLOSE"` (case-sensitive; including
non-UTF-8 byte sequences) is logged and the loop continues: no pulse, no
error out of the loop. -/
theorem c4_invalid_payload_ignored (env : LoopEnv) (payload : List Nat)
    (hO : payload ≠ str_codepoints (Command.to_string Command.Open))
    (hC : payload ≠ str_codepoints (Command.to_string Command.Close)) :
    loopStep env (LoopEvent.busEvent (MqttPoll.publishPacket command_topic payload)) =
      StepResult.cont [Act.log "invalid payload on command topic"] := by
  have hparse : parse_command_payload payload = none := by
    cases hp : parse_command_payload payload with
    | none => rfl
    | some cmd =>
      exfalso
      have hpl := parse_command_payload_some hp
      cases cmd
      · exact hO hpl
      · exact hC hpl
  simp [loopStep, hparse]

/-- Witness for C4 at a concrete input: the single byte `0xFF` is not
valid UTF-8, hence not either token; the handler logs and continues. -/
theorem c4_invalid_payload_ignored_witness :
    [255] ≠ str_codepoints (Command.to_string Command.Open) ∧
    [255] ≠ str_codepoints (Command.to_string Command.Close) ∧
    loopStep ⟨0, true, true, true⟩
        (LoopEvent.busEvent (MqttPoll.publishPacket command_topic [255])) =
      StepResult.cont [Act.log "invalid payload on command topic"] :=
  ⟨by decide, by decide,
   c4_invalid_payload_ignored ⟨0, true, true, true⟩ [255] (by decide) (by decide)⟩

/-- Counterexample to claim C5: a bus-client error delivered by
`event_loop.poll()` is not fatal — the loop logs `mqtt error` and
continues; it neither propagates out of the loop nor ends the process. -/
theorem c5_bus_error_not_fatal_counterexample :
    loopStep ⟨0, true, true, true⟩ (LoopEvent.busEvent MqttPoll.pollError)
      = StepResult.cont [Act.log "mqtt error"] ∧
    (loopStep ⟨0, true, true, true⟩ (LoopEvent.busEvent MqttPoll.pollError)).is_fatal = false ∧
    step_exit (loopStep ⟨0, true, true, true⟩ (LoopEvent.busEvent MqttPoll.pollError))
      = none := by
  decide

/-- Claim C5 as amended: errors on the status-line stream and on the
trigger-line stream are fatal and propagate out of the loop, while a
bus-client error delivered by the event-loop poll is logged and the loop
continues. -/
theorem c5_io_error_fatality (env : LoopEnv) :
    loopStep env (LoopEvent.statusChange StreamItem.err) = StepResult.fatal [] ∧
    loopStep env (LoopEvent.inputTrigger StreamItem.err) = StepResult.fatal [] ∧
    loopStep env (LoopEvent.busEvent MqttPoll.pollError)
      = StepResult.cont [Act.log "mqtt error"] :=
  ⟨rfl, rfl, rfl⟩

/-- Claim C7: a trigger-line edge with non-zero raw value invokes the
relay pulse (a pulse error propagating out of the loop), a zero value is
ignored with no side effect. -/
theorem c7_trigger_edge (env : LoopEnv) (x : Nat) :
    (x ≠ 0 → loopStep env (LoopEvent.inputTrigger (StreamItem.ok x)) =
      (if env.pulse_ok then
        StepResult.cont [Act.log "detected input trigger", Act.pulse]
       else StepResult.fatal [Act.log "detected input trigger", Act.pulse])) ∧
    (x = 0 → loopStep env (LoopEvent.inputTrigger (StreamItem.ok x)) = StepResult.cont []) ∧
    (pulse_invoked (loopStep env (LoopEvent.inputTrigger (StreamItem.ok x))) ↔ x ≠ 0) ∧
    ((loopStep env (LoopEvent.inputTrigger (StreamItem.ok x))).is_fatal = true ↔
      (x ≠ 0 ∧ env.pulse_ok = false)) := by
  by_cases hx : x = 0 <;> cases hp : env.pulse_ok <;>
    simp [loopStep, hx, hp, pulse_invoked, StepResult.acts, StepResult.is_fatal]

/-- Witness for C7 at concrete inputs: value `1` pulses and continues,
value `0` is a no-op. -/
theorem c7_trigger_edge_witness :
    loopStep ⟨0, true, true, true⟩ (LoopEvent.inputTrigger (StreamItem.ok 1)) =
      StepResult.cont [Act.log "detected input trigger", Act.pulse] ∧
    loopStep ⟨0, true, true, true⟩ (LoopEvent.inputTrigger (StreamItem.ok 0)) =
      StepResult.cont [] :=
  ⟨(c7_trigger_edge ⟨0, true, true, true⟩ 1).1 (by decide),
   (c7_trigger_edge ⟨0, true, true, true⟩ 0).2.1 rfl⟩

/-- Command handling never breaks the loop: it continues or propagates
an error, so it never produces the success exit. -/
theorem step_exit_handle_command (env : LoopEnv) (c : Command) :
    step_exit (handle_command env c) ≠ some ProcExit.success := by
  unfold handle_command
  cases hg : get_door_status env with
  | none => simp [step_exit]
  | some s =>
    cases c <;> cases s <;> cases hp : env.pulse_ok <;> simp [step_exit, hp]

/-- Claim C9: the process exits with success exactly when the loop ends
via the shutdown signal or a clean closure of the status-line or
trigger-line stream; any other loop exit is a propagated error and a
failure outcome. -/
theorem c9_exit_classification (env : LoopEnv) (ev : LoopEvent) :
    (step_exit (loopStep env ev) = some ProcExit.success ↔
      (ev = LoopEvent.ctrlC ∨ ev = LoopEvent.statusChange StreamItem.closed ∨
       ev = LoopEvent.inputTrigger StreamItem.closed)) ∧
    (step_exit (loopStep env ev) = some ProcExit.failure →
      ¬ (ev = LoopEvent.ctrlC ∨ ev = LoopEvent.statusChange StreamItem.closed ∨
         ev = LoopEvent.inputTrigger StreamItem.closed)) := by
  constructor
  · cases ev with
    | timerTick =>
      simp only [loopStep]
      cases hg : get_door_status env
      · simp [step_exit]
      · cases hp : env.publish_ok <;> simp [step_exit, hp]
    | statusChange i =>
      cases i with
      | ok x =>
        simp only [loopStep]
        cases hp : env.publish_ok <;> simp [step_exit, hp]
      | err => simp [loopStep, step_exit]
      | closed => simp [loopStep, step_exit]
    | inputTrigger i =>
      cases i with
      | ok x =>
        simp only [loopStep]
        by_cases hx : x = 0 <;> cases hp : env.pulse_ok <;> simp [step_exit, hx, hp]
      | err => simp [loopStep, step_exit]
      | closed => simp [loopStep, step_exit]
    | busEvent m =>
      cases m with
      | publishPacket topic payload =>
        simp only [loopStep]
        by_cases ht : topic = command_topic
        · simp only [ht, if_pos rfl]
          cases hp : parse_command_payload payload with
          | none => simp [step_exit]
          | some c =>
            simp only []
            constructor
            · intro h; exact absurd h (step_exit_handle_command env c)
            · intro h; rcases h with h | h | h <;> exact LoopEvent.noConfusion h
        · simp [ht, step_exit]
      | otherEvent => simp [loopStep, step_exit]
      | pollError => simp [loopStep, step_exit]
    | ctrlC => simp [loopStep, step_exit]
  · intro hf htrio
    rcases htrio with rfl | rfl | rfl <;> simp [loopStep, step_exit] at hf

/-- Claim C8: with every startup operation succeeding, startup performs,
in this order: hardware configuration, opening the status-line stream,
opening the trigger-line stream, bus client creation, the non-retained
discovery-descriptor publish, the command-topic subscribe, and exactly
one retained publish of the current door state. -/
theorem c8_startup_order (v : Nat) :
    startup ⟨true, true, true, true, true, true, v, true⟩ =
      ([Act.init_hardware, Act.open_status_stream, Act.open_input_stream, Act.connect_bus,
        Act.publish_config device_config 1 false, Act.subscribe command_topic 2,
        Act.publish state_topic 1 true (Status.to_string (parse_door_status v))], true) ∧
    List.countP is_state_publish
      (startup ⟨true, true, true, true, true, true, v, true⟩).1 = 1 :=
  ⟨rfl, rfl⟩

/-- Claim C6: a relay pulse executes a prefix of the fixed sequence
(lock acquire/release, log, optional indicator high, relay high, 200 ms
hold, relay low, optional indicator low): the whole sequence exactly when
every pin write succeeds, and on a failed write the remaining steps are
not executed while every line keeps the value given it by the writes
that did execute. -/
theorem c6_pulse_sequence (hasLed : Bool) (env : PulseEnv) (p : PinState) :
    ∃ k, (trigger_relay hasLed env p).trace = (pulse_full_trace hasLed).take k ∧
      (trigger_relay hasLed env p).pins =
        List.foldl apply_relay_event p (trigger_relay hasLed env p).trace ∧
      ((trigger_relay hasLed env p).ok = true ↔
        (trigger_relay hasLed env p).trace = pulse_full_trace hasLed) := by
  cases hasLed <;> rcases env with ⟨a, b, c, d⟩ <;>
    cases a <;> cases b <;> cases c <;> cases d <;>
      first
      | (refine ⟨8, ?_, ?_, ?_⟩ <;> simp [trigger_relay, pulse_full_trace, apply_relay_event,
          set_led_value, set_relay_value] <;> done)
      | (refine ⟨7, ?_, ?_, ?_⟩ <;> simp [trigger_relay, pulse_full_trace, apply_relay_event,
          set_led_value, set_relay_value] <;> done)
      | (refine ⟨6, ?_, ?_, ?_⟩ <;> simp [trigger_relay, pulse_full_trace, apply_relay_event,
          set_led_value, set_relay_value] <;> done)
      | (refine ⟨5, ?_, ?_, ?_⟩ <;> simp [trigger_relay, pulse_full_trace, apply_relay_event,
          set_led_value, set_relay_value] <;> done)
      | (refine ⟨4, ?_, ?_, ?_⟩ <;> simp [trigger_relay, pulse_full_trace, apply_relay_event,
          set_led_value, set_relay_value] <;> done)
      | (refine ⟨3, ?_, ?_, ?_⟩ <;> simp [trigger_relay, pulse_full_trace, apply_relay_event,
          set_led_value, set_relay_value] <;> done)

/-- Claim C2 is violated by the code: `let _ = hw.lock.lock().await;`
drops the `MutexGuard` at the end of that statement (the wildcard
pattern binds nothing), so the mutex is released before the first pin
write and is not held during the energize window or the 200 ms hold —
the trace of a pulse shows the release strictly before the relay is set
high. -/
theorem c2_lock_released_before_energize :
    (trigger_relay false ⟨true, true, true, true⟩ ⟨0, 0⟩).trace =
      [RelayEvent.lockAcquire, RelayEvent.lockRelease, RelayEvent.logTrigger,
       RelayEvent.setRelay 1, RelayEvent.sleepMs 200, RelayEvent.setRelay 0] ∧
    List.indexOf RelayEvent.lockRelease
        (trigger_relay false ⟨true, true, true, true⟩ ⟨0, 0⟩).trace <
      List.indexOf (RelayEvent.setRelay 1)
        (trigger_relay false ⟨true, true, true, true⟩ ⟨0, 0⟩).trace := by
  decide
